import Mathlib

/-!
Shallow embedding of `torch_geometric/nn/conv/cugraph/rgcn_conv.py`
(`CuGraphRGCNConv`), a relational graph convolution layer wrapping the
external `cugraph-ops` aggregation kernel.

Tensors are embedded as nested lists of scalars: a vector is a
`List ℤ`, a matrix a list of rows, a rank-3 tensor a list of matrices
(slices along dimension 0).  Scalars are integers: the layer performs only
multiplication and addition (no division), so ℤ is closed under every
operation it performs and equality of outputs is exact, sidestepping
floating-point tolerance.  The external aggregation kernel
`agg_hg_basis_n2n_post` (imported as `RGCNConvAgg`) is opaque: `forward`
is parameterised by it.  Randomness used by Glorot initialisation is
abstracted as explicit draw functions.
-/

namespace RGCN

abbrev Vec := List ℤ
abbrev Mat := List Vec
abbrev Tensor3 := List Mat

/-- Dot product of two vectors (zipWith-truncating, as both operands in this
development always have matching lengths when shapes are well formed). -/
def dot (a b : Vec) : ℤ := (List.zipWith (· * ·) a b).sum

/-- The `j`-th column of a matrix (out-of-range entries read as `0`). -/
def col (B : Mat) (j : Nat) : Vec := B.map (fun r => r.getD j 0)

/-- Number of columns of a matrix, read off its first row. -/
def numColsOf (B : Mat) : Nat := (B.headD []).length

/-- Matrix product `A @ B` (PyTorch `@` on 2-D tensors). -/
def matMul (A B : Mat) : Mat :=
  A.map (fun r => (List.range (numColsOf B)).map (fun j => dot r (col B j)))

/-- `torch.eye n`: the `n × n` identity matrix. -/
def eye (n : Nat) : Mat :=
  (List.range n).map (fun i => (List.range n).map (fun j => if i = j then (1 : ℤ) else 0))

/-- Split a flat list into consecutive rows of length `o`
(the storage-order reshape behind `Tensor.view(-1, o)`; `view` requires
`o` to divide the element count, in which case the chunks cover the list
exactly). -/
def chunkRows (o : Nat) (l : List ℤ) : Mat :=
  (List.range (l.length / o)).map (fun i => (l.drop (o * i)).take o)

/-- `self.weight.view(-1, out_channels)`: flatten the rank-3 weight tensor in
storage order and reshape it to rows of length `out_channels`. -/
def viewFlat (w : Tensor3) (out_channels : Nat) : Mat :=
  chunkRows out_channels (w.flatten.flatten)

/-- `out + self.bias`: broadcast addition of a bias row vector onto every row. -/
def addBias (out : Mat) (b : Vec) : Mat :=
  out.map (fun r => List.zipWith (· + ·) r b)

/-- An all-zero matrix of shape `r × c` (`torch.Tensor(r, c)` allocation; the
allocated values are never observed because `reset_parameters` overwrites
every allocated tensor, so they are represented as zeros). -/
def mkMat (r c : Nat) : Mat :=
  (List.range r).map (fun _ => (List.range c).map (fun _ => (0 : ℤ)))

/-- An all-zero rank-3 tensor of shape `a × b × c` (`torch.Tensor(a, b, c)`
allocation; values never observed, see `mkMat`). -/
def mkT3 (a b c : Nat) : Tensor3 := (List.range a).map (fun _ => mkMat b c)

/-- Modelled from the spec: the initialisation helper
`glorot(tensor) → void` of `torch_geometric.nn.inits` is not part of this
file; the spec describes it as an in-place variance-scaled random fill.  The
random draws (already carrying the variance scale) are abstracted as the
function `g`; the fill keeps the tensor's shape and replaces every entry. -/
def glorotMat (g : Nat → Nat → ℤ) (m : Mat) : Mat :=
  m.mapIdx (fun i row => row.mapIdx (fun j _ => g i j))

/-- Glorot fill of a rank-3 tensor (`glorot(self.weight[:end])` fills the
whole sliced sub-tensor); draws indexed additionally by the slice index. -/
def glorotT3 (g : Nat → Nat → Nat → ℤ) (t : Tensor3) : Tensor3 :=
  t.mapIdx (fun i sl => glorotMat (g i) sl)

/-- Modelled from the spec: `glorot` applied to a possibly-absent parameter
(`glorot(self.comp)` where `comp` may be `None`); an absent argument is a
no-op ("absent means no-op in that code path"). -/
def glorotOpt (g : Nat → Nat → ℤ) (m : Option Mat) : Option Mat :=
  m.map (glorotMat g)

/-- Modelled from the spec: `zeros(tensor) → void` of
`torch_geometric.nn.inits` is an in-place zero fill; an absent (`None`)
argument is a no-op. -/
def zerosOpt (b : Option Vec) : Option Vec :=
  b.map (fun v => List.replicate v.length 0)

/-- Modelled from the spec: the typed-graph builder `get_typed_cugraph`
inherited from `CuGraphModule` is not part of this file; the spec describes
it as `build(num_nodes, csc_pair, edge_type, num_relations,
max_num_neighbors_or_none) → opaque_graph_handle`.  The handle records the
arguments verbatim. -/
structure TypedGraph where
  num_nodes : Nat
  row : List Nat
  colptr : List Nat
  edge_type : List Nat
  num_relations : Nat
  max_num_neighbors : Option Nat
  deriving DecidableEq, Repr

/-- Modelled from the spec: `get_typed_cugraph` builds the opaque typed
graph handle from its arguments. -/
def get_typed_cugraph (num_nodes : Nat) (csc : List Nat × List Nat)
    (edge_type : List Nat) (num_relations : Nat)
    (max_num_neighbors : Option Nat) : TypedGraph :=
  { num_nodes := num_nodes, row := csc.1, colptr := csc.2,
    edge_type := edge_type, num_relations := num_relations,
    max_num_neighbors := max_num_neighbors }

/-- The external aggregation kernel `RGCNConvAgg`
(`pylibcugraphops...agg_hg_basis_n2n_post`), opaque to this file: arguments
are the feature matrix, the optional `comp` matrix, the typed graph handle,
`concat_own` and `norm_by_out_degree`. -/
abbrev Kernel := Mat → Option Mat → TypedGraph → Bool → Bool → Mat

/-- The state of a `CuGraphRGCNConv` layer: configuration fields and the
registered parameters `weight`, `comp`, `bias` (the latter two optional,
`register_parameter(name, None)` represented by `none`). -/
structure CuGraphRGCNConv where
  in_channels : Nat
  out_channels : Nat
  num_relations : Nat
  num_bases : Option Nat
  aggr : String
  root_weight : Bool
  weight : Tensor3
  comp : Option Mat
  bias : Option Vec
  deriving DecidableEq, Repr

namespace CuGraphRGCNConv

/-- `reset_parameters`:
`end = -1 if self.root_weight else None`; `glorot(self.weight[:end])`;
`glorot(self.comp)`; `if self.root_weight: glorot(self.weight[-1])`;
`zeros(self.bias)`.  The draw functions `g1` (bulk slices), `g2` (final
self-loop slice) and `g3` (comp) abstract the three independent random
fills. -/
def reset_parameters (m : CuGraphRGCNConv) (g1 : Nat → Nat → Nat → ℤ)
    (g2 g3 : Nat → Nat → ℤ) : CuGraphRGCNConv :=
  let B := m.weight.length
  let endIdx := if m.root_weight then B - 1 else B
  let weight1 := glorotT3 g1 (m.weight.take endIdx) ++ m.weight.drop endIdx
  let comp1 := glorotOpt g3 m.comp
  let weight2 :=
    if m.root_weight then
      weight1.take (B - 1) ++ (weight1.drop (B - 1)).map (glorotMat g2)
    else weight1
  { m with weight := weight2, comp := comp1, bias := zerosOpt m.bias }

/-- The `ValueError` message raised for an unrecognised `aggr`. -/
def aggrErrorMsg (aggr : String) : String :=
  "Aggregation function must be either mean or sum (got " ++ aggr ++ ")"

/-- `__init__`: validate `aggr`, record the configuration, allocate
`weight` (and `comp` when `num_bases` is given; `bias` when requested),
then call `reset_parameters`.  Failure is an `Except.error`; on the error
path no tensor is allocated and no field is set. -/
def init (in_channels out_channels num_relations : Nat)
    (num_bases : Option Nat) (aggr : String) (root_weight bias : Bool)
    (g1 : Nat → Nat → Nat → ℤ) (g2 g3 : Nat → Nat → ℤ) :
    Except String CuGraphRGCNConv :=
  if aggr ∉ ["sum", "add", "mean"] then
    .error (aggrErrorMsg aggr)
  else
    let dim_root_weight := if root_weight then 1 else 0
    let (weight, comp) :=
      match num_bases with
      | some nb =>
          (mkT3 (nb + dim_root_weight) in_channels out_channels,
           some (mkMat num_relations nb))
      | none =>
          (mkT3 (num_relations + dim_root_weight) in_channels out_channels,
           none)
    let b : Option Vec := if bias then some (List.replicate out_channels 0) else none
    .ok (reset_parameters
      { in_channels := in_channels, out_channels := out_channels,
        num_relations := num_relations, num_bases := num_bases,
        aggr := aggr, root_weight := root_weight,
        weight := weight, comp := comp, bias := b } g1 g2 g3)

/-- The feature default at the top of `forward`:
`if x is None: x = torch.eye(self.in_channels, device=edge_type.device)`
(the device argument has no numeric content). -/
def resolveFeatures (m : CuGraphRGCNConv) (x : Option Mat) : Mat :=
  match x with
  | none => eye m.in_channels
  | some x => x

/-- `forward(x, csc, edge_type, max_num_neighbors)`: substitute
`torch.eye(self.in_channels)` when `x` is `None` (`resolveFeatures`); build
the typed graph handle from `x.size(0)`, the CSC pair, `edge_type`,
`num_relations` and the hint; invoke the kernel with
`concat_own=self.root_weight` and
`norm_by_out_degree=bool(self.aggr == 'mean')`; right-multiply by
`self.weight.view(-1, self.out_channels)`; add `bias` when present.  The
method mutates no field of `self`, so the returned state is the input
state. -/
def forward (m : CuGraphRGCNConv) (kernel : Kernel) (x : Option Mat)
    (csc : List Nat × List Nat) (edge_type : List Nat)
    (max_num_neighbors : Option Nat) : CuGraphRGCNConv × Mat :=
  let x := resolveFeatures m x
  let graph := get_typed_cugraph x.length csc edge_type m.num_relations
    max_num_neighbors
  let out := kernel x m.comp graph m.root_weight (m.aggr == "mean")
  let out := matMul out (viewFlat m.weight m.out_channels)
  let out := match m.bias with
    | some b => addBias out b
    | none => out
  (m, out)

/-- The module-level `try: import ... except ImportError: pass`: when the
dependency is installed the name `RGCNConvAgg` is bound to the kernel,
otherwise it stays unbound; the import of the module succeeds either way. -/
def importRGCNConvAgg (installed : Bool) (impl : Kernel) : Option Kernel :=
  if installed then some impl else none

/-- The `NameError` raised when `forward` evaluates the name `RGCNConvAgg`
and the optional dependency was never imported. -/
def nameErrorMsg : String := "NameError: name RGCNConvAgg is not defined"

/-- `forward` under a possibly-unbound kernel name: the body runs up to the
kernel call; evaluating the unbound name raises a `NameError`, which is not
caught or translated. -/
def forwardAvail (m : CuGraphRGCNConv) (kernel : Option Kernel)
    (x : Option Mat) (csc : List Nat × List Nat) (edge_type : List Nat)
    (max_num_neighbors : Option Nat) :
    Except String (CuGraphRGCNConv × Mat) :=
  match kernel with
  | none => .error nameErrorMsg
  | some k => .ok (forward m k x csc edge_type max_num_neighbors)

end CuGraphRGCNConv

/-- A matrix has shape `r × c`: `r` rows, each of length `c`. -/
def HasShapeM (m : Mat) (r c : Nat) : Prop :=
  m.length = r ∧ ∀ row ∈ m, row.length = c

instance (m : Mat) (r c : Nat) : Decidable (HasShapeM m r c) :=
  inferInstanceAs (Decidable (_ ∧ _))

/-- A rank-3 tensor has shape `a × b × c`. -/
def HasShape3 (t : Tensor3) (a b c : Nat) : Prop :=
  t.length = a ∧ ∀ sl ∈ t, HasShapeM sl b c

instance (t : Tensor3) (a b c : Nat) : Decidable (HasShape3 t a b c) :=
  inferInstanceAs (Decidable (_ ∧ _))

/-- Spec-side reading of the default-feature sentence: "the number of source
nodes inferred from the edge structure", read off the CSC pair as one more
than the largest row (source) index occurring among the edges. -/
def numSourceNodesInferred (csc : List Nat × List Nat) : Nat :=
  csc.1.foldr max 0 + 1

theorem hasShapeM_mkMat (r c : Nat) : HasShapeM (mkMat r c) r c := by
  constructor
  · simp [mkMat]
  · intro row hrow
    simp only [mkMat, List.mem_map] at hrow
    obtain ⟨i, -, rfl⟩ := hrow
    simp

theorem hasShape3_mkT3 (a b c : Nat) : HasShape3 (mkT3 a b c) a b c := by
  constructor
  · simp [mkT3]
  · intro sl hsl
    simp only [mkT3, List.mem_map] at hsl
    obtain ⟨i, -, rfl⟩ := hsl
    exact hasShapeM_mkMat b c

theorem mem_mapIdx_ex {α β : Type} (f : Nat → α → β) (l : List α) (b : β)
    (h : b ∈ l.mapIdx f) : ∃ i a, a ∈ l ∧ b = f i a := by
  rw [List.mapIdx_eq_enum_map] at h
  obtain ⟨⟨i, a⟩, hmem, rfl⟩ := List.mem_map.mp h
  exact ⟨i, a, List.snd_mem_of_mem_enum hmem, rfl⟩

theorem hasShapeM_glorotMat (g : Nat → Nat → ℤ) {m : Mat} {r c : Nat}
    (h : HasShapeM m r c) : HasShapeM (glorotMat g m) r c := by
  obtain ⟨hlen, hrows⟩ := h
  refine ⟨by simpa [glorotMat] using hlen, ?_⟩
  intro row hrow
  obtain ⟨i, a, ha, rfl⟩ := mem_mapIdx_ex _ _ _ hrow
  simpa using hrows a ha

theorem slices_glorotT3 (g : Nat → Nat → Nat → ℤ) {t : Tensor3} {b c : Nat}
    (h : ∀ sl ∈ t, HasShapeM sl b c) :
    ∀ sl ∈ glorotT3 g t, HasShapeM sl b c := by
  intro sl hsl
  obtain ⟨i, a, ha, rfl⟩ := mem_mapIdx_ex _ _ _ hsl
  exact hasShapeM_glorotMat _ (h a ha)

theorem slices_glorot_split (g1 : Nat → Nat → Nat → ℤ) {w : Tensor3}
    {I O : Nat} (n : Nat) (hsl : ∀ sl ∈ w, HasShapeM sl I O) :
    ∀ sl ∈ glorotT3 g1 (w.take n) ++ w.drop n, HasShapeM sl I O := by
  intro sl hmem
  rcases List.mem_append.mp hmem with hmem | hmem
  · exact slices_glorotT3 g1 (fun s hs => hsl s (List.mem_of_mem_take hs)) sl hmem
  · exact hsl sl (List.mem_of_mem_drop hmem)

theorem length_glorot_split (g1 : Nat → Nat → Nat → ℤ) (w : Tensor3)
    (n : Nat) (hn : n ≤ w.length) :
    (glorotT3 g1 (w.take n) ++ w.drop n).length = w.length := by
  simp only [List.length_append, glorotT3, List.length_mapIdx,
    List.length_take, List.length_drop]
  omega

theorem hasShape3_reset_weight {m : CuGraphRGCNConv} {B I O : Nat}
    (g1 : Nat → Nat → Nat → ℤ) (g2 g3 : Nat → Nat → ℤ)
    (h : HasShape3 m.weight B I O) :
    HasShape3 (m.reset_parameters g1 g2 g3).weight B I O := by
  obtain ⟨hlen, hsl⟩ := h
  cases hr : m.root_weight
  · refine ⟨?_, ?_⟩
    · simp only [CuGraphRGCNConv.reset_parameters, hr, Bool.false_eq_true,
        if_false]
      rw [length_glorot_split g1 m.weight m.weight.length le_rfl]
      exact hlen
    · simp only [CuGraphRGCNConv.reset_parameters, hr, Bool.false_eq_true,
        if_false]
      exact slices_glorot_split g1 m.weight.length hsl
  · have hsl1 := slices_glorot_split g1 (m.weight.length - 1) hsl
    have hlen1 := length_glorot_split g1 m.weight (m.weight.length - 1)
      (Nat.sub_le _ _)
    refine ⟨?_, ?_⟩
    · simp only [CuGraphRGCNConv.reset_parameters, hr, if_true,
        List.length_append, List.length_take, List.length_map,
        List.length_drop, hlen1]
      omega
    · simp only [CuGraphRGCNConv.reset_parameters, hr, if_true]
      intro sl hmem
      rcases List.mem_append.mp hmem with hmem | hmem
      · exact hsl1 sl (List.mem_of_mem_take hmem)
      · obtain ⟨s, hs, rfl⟩ := List.mem_map.mp hmem
        exact hasShapeM_glorotMat _ (hsl1 s (List.mem_of_mem_drop hs))

theorem reset_comp_eq (m : CuGraphRGCNConv) (g1 : Nat → Nat → Nat → ℤ)
    (g2 g3 : Nat → Nat → ℤ) :
    (m.reset_parameters g1 g2 g3).comp = glorotOpt g3 m.comp := rfl

theorem reset_bias_eq (m : CuGraphRGCNConv) (g1 : Nat → Nat → Nat → ℤ)
    (g2 g3 : Nat → Nat → ℤ) :
    (m.reset_parameters g1 g2 g3).bias = zerosOpt m.bias := rfl

open CuGraphRGCNConv

/-- Fixed (all-zero) draw streams, used to instantiate the abstracted
random fills at concrete inputs. -/
def gZ3 : Nat → Nat → Nat → ℤ := fun _ _ _ => 0

/-- See `gZ3`. -/
def gZ2 : Nat → Nat → ℤ := fun _ _ => 0

/-- C2: construction succeeds exactly for `aggr` in `{sum, add, mean}`;
for any other string `__init__` raises a `ValueError` before the model
state exists (the error carries no constructed state, so no weight, comp
or bias tensor is allocated and no field is set). -/
theorem C2_aggr_validation (I O R : Nat) (nb : Option Nat) (aggr : String)
    (rwt b : Bool) (g1 : Nat → Nat → Nat → ℤ) (g2 g3 : Nat → Nat → ℤ) :
    (aggr ∈ ["sum", "add", "mean"] →
      (init I O R nb aggr rwt b g1 g2 g3).isOk = true) ∧
    (aggr ∉ ["sum", "add", "mean"] →
      init I O R nb aggr rwt b g1 g2 g3 = .error (aggrErrorMsg aggr)) := by
  constructor
  · intro h
    simp [init, h, Except.isOk, Except.toBool]
  · intro h
    simp [init, h]

/-- Witness for C2 at `aggr = "mean"` (valid) and `aggr = "max"` (invalid). -/
theorem C2_aggr_validation_witness :
    (init 2 3 2 none "mean" true true gZ3 gZ2 gZ2).isOk = true ∧
    init 2 3 2 none "max" true true gZ3 gZ2 gZ2
      = .error (aggrErrorMsg "max") :=
  ⟨(C2_aggr_validation 2 3 2 none "mean" true true gZ3 gZ2 gZ2).1 (by decide),
   (C2_aggr_validation 2 3 2 none "max" true true gZ3 gZ2 gZ2).2 (by decide)⟩

/-- C3: for every successful construction, `weight` has shape
`(Bn + dim_root_weight, I, O)` when `num_bases = Bn` is given and
`(R + dim_root_weight, I, O)` otherwise; `comp` has shape `(R, Bn)` when
`num_bases` is given and is absent otherwise; `bias` has shape `(O,)` when
requested and is absent otherwise. -/
theorem C3_parameter_shapes (I O R : Nat) (nb : Option Nat) (aggr : String)
    (rwt b : Bool) (g1 : Nat → Nat → Nat → ℤ) (g2 g3 : Nat → Nat → ℤ)
    (m : CuGraphRGCNConv)
    (h : init I O R nb aggr rwt b g1 g2 g3 = .ok m) :
    HasShape3 m.weight (nb.getD R + (if rwt then 1 else 0)) I O ∧
    (∀ bn, nb = some bn → ∃ c, m.comp = some c ∧ HasShapeM c R bn) ∧
    (nb = none → m.comp = none) ∧
    (b = true → ∃ bv, m.bias = some bv ∧ bv.length = O) ∧
    (b = false → m.bias = none) := by
  unfold init at h
  split at h
  · exact absurd h (by simp)
  · rcases nb with _ | bn <;> cases b <;>
      simp only [Except.ok.injEq] at h <;> subst h <;>
      refine ⟨?_, ?_, ?_, ?_, ?_⟩
    · exact hasShape3_reset_weight g1 g2 g3 (hasShape3_mkT3 _ _ _)
    · intro bn hbn
      exact absurd hbn (by simp)
    · intro _
      simp [reset_comp_eq, glorotOpt]
    · intro hb
      exact absurd hb (by simp)
    · intro _
      simp [reset_bias_eq, zerosOpt]
    · exact hasShape3_reset_weight g1 g2 g3 (hasShape3_mkT3 _ _ _)
    · intro bn hbn
      exact absurd hbn (by simp)
    · intro _
      simp [reset_comp_eq, glorotOpt]
    · intro _
      refine ⟨List.replicate O 0, ?_, by simp⟩
      simp [reset_bias_eq, zerosOpt]
    · intro hb
      exact absurd hb (by simp)
    · exact hasShape3_reset_weight g1 g2 g3 (hasShape3_mkT3 _ _ _)
    · intro bn hbn
      injection hbn with he
      subst he
      exact ⟨glorotMat g3 (mkMat R bn), by simp [reset_comp_eq, glorotOpt],
        hasShapeM_glorotMat _ (hasShapeM_mkMat _ _)⟩
    · intro hnb
      exact absurd hnb (by simp)
    · intro hb
      exact absurd hb (by simp)
    · intro _
      simp [reset_bias_eq, zerosOpt]
    · exact hasShape3_reset_weight g1 g2 g3 (hasShape3_mkT3 _ _ _)
    · intro bn hbn
      injection hbn with he
      subst he
      exact ⟨glorotMat g3 (mkMat R bn), by simp [reset_comp_eq, glorotOpt],
        hasShapeM_glorotMat _ (hasShapeM_mkMat _ _)⟩
    · intro hnb
      exact absurd hnb (by simp)
    · intro _
      refine ⟨List.replicate O 0, ?_, by simp⟩
      simp [reset_bias_eq, zerosOpt]
    · intro hb
      exact absurd hb (by simp)

/-- Witness for C3 at `I = 5, O = 3, R = 4, num_bases = 2`,
`root_weight = true`, `bias = true`. -/
def mC3val : CuGraphRGCNConv :=
  match init 5 3 4 (some 2) "mean" true true gZ3 gZ2 gZ2 with
  | .ok m => m
  | .error _ =>
      { in_channels := 0, out_channels := 0, num_relations := 0,
        num_bases := none, aggr := "", root_weight := false,
        weight := [], comp := none, bias := none }

/-- Witness for C3: the concrete layer `mC3val` exists and has the claimed
shapes. -/
theorem C3_parameter_shapes_witness :
    HasShape3 mC3val.weight 3 5 3 ∧
    (∃ c, mC3val.comp = some c ∧ HasShapeM c 4 2) ∧
    (∃ bv, mC3val.bias = some bv ∧ bv.length = 3) :=
  have h := C3_parameter_shapes 5 3 4 (some 2) "mean" true true gZ3 gZ2 gZ2
    mC3val rfl
  ⟨h.1, h.2.1 2 rfl, h.2.2.2.1 rfl⟩

/-- A concrete kernel used at counterexamples and witnesses: it returns its
feature argument unchanged. -/
def kFeat : Kernel := fun x _ _ _ _ => x

/-- A concrete layer with `in_channels = 2`, one relation, direct weights,
no root weight, no bias, `aggr = "sum"`. -/
def mC1 : CuGraphRGCNConv :=
  { in_channels := 2, out_channels := 1, num_relations := 1,
    num_bases := none, aggr := "sum", root_weight := false,
    weight := [[[1], [1]]], comp := none, bias := none }

/-- `mC1` with `aggr = "mean"`. -/
def mC1mean : CuGraphRGCNConv := { mC1 with aggr := "mean" }

/-- A CSC edge structure with three source nodes `{0, 1, 2}` feeding one
target node. -/
def cscC1 : List Nat × List Nat := ([0, 1, 2], [0, 3])

/-- C1 counterexample: with `in_channels = 2` and an edge structure whose
source-node set is `{0, 1, 2}` (so any inference of the number of source
nodes from the edge structure gives `N = 3`), calling `forward` with
`x = None` does not equal calling it with the `N × N` identity: the code
substitutes `torch.eye(self.in_channels)`, whose size is `in_channels`,
not a node count read from the edges. -/
theorem C1_counterexample :
    ¬ ((forward mC1 kFeat none cscC1 [0, 0, 0] none).2
      = (forward mC1 kFeat (some (eye (numSourceNodesInferred cscC1)))
          cscC1 [0, 0, 0] none).2) := by
  decide

/-- C1 (amended): when `x` is absent the layer substitutes the
`in_channels × in_channels` identity matrix, and the result equals calling
`forward` with that explicit identity supplied as `x`. -/
theorem C1_default_features (m : CuGraphRGCNConv) (k : Kernel)
    (csc : List Nat × List Nat) (et : List Nat) (mnn : Option Nat) :
    resolveFeatures m none = eye m.in_channels ∧
    forward m k none csc et mnn
      = forward m k (some (eye m.in_channels)) csc et mnn :=
  ⟨rfl, rfl⟩

/-- C4: `forward` invokes the kernel with the resolved feature matrix, the
`comp` matrix (null when basis decomposition is unused), the typed graph
handle, `concat_own = root_weight` and `norm_by_out_degree =
(aggr == "mean")` — false for both `"sum"` and `"add"` — then
right-multiplies the kernel output by `weight.view(-1, out_channels)` and
adds the bias when present. -/
theorem C4_kernel_invocation (m : CuGraphRGCNConv) (k : Kernel)
    (x : Option Mat) (csc : List Nat × List Nat) (et : List Nat)
    (mnn : Option Nat) :
    ((forward m k x csc et mnn).2 =
      match m.bias with
      | some b => addBias (matMul
          (k (resolveFeatures m x) m.comp
            (get_typed_cugraph (resolveFeatures m x).length csc et
              m.num_relations mnn)
            m.root_weight (m.aggr == "mean"))
          (viewFlat m.weight m.out_channels)) b
      | none => matMul
          (k (resolveFeatures m x) m.comp
            (get_typed_cugraph (resolveFeatures m x).length csc et
              m.num_relations mnn)
            m.root_weight (m.aggr == "mean"))
          (viewFlat m.weight m.out_channels)) ∧
    (m.aggr = "sum" ∨ m.aggr = "add" → (m.aggr == "mean") = false) ∧
    (m.aggr = "mean" → (m.aggr == "mean") = true) := by
  refine ⟨?_, ?_, ?_⟩
  · cases hb : m.bias <;> simp [forward, hb]
  · intro h
    rcases h with h | h <;> simp [h]
  · intro h
    simp [h]

/-- Witness for C4: the normalisation flag at `aggr = "sum"` and at
`aggr = "mean"`. -/
theorem C4_kernel_invocation_witness :
    (mC1.aggr == "mean") = false ∧ (mC1mean.aggr == "mean") = true :=
  ⟨(C4_kernel_invocation mC1 kFeat none cscC1 [0, 0, 0] none).2.1
      (Or.inl rfl),
   (C4_kernel_invocation mC1mean kFeat none cscC1 [0, 0, 0] none).2.2 rfl⟩

/-- C5: the output of a layer with bias enabled equals the output of the
otherwise identical layer with bias disabled plus the bias vector broadcast
over all rows; when `bias` is absent no bias addition happens (the output
is exactly the projected kernel output). -/
theorem C5_bias_law (m : CuGraphRGCNConv) (k : Kernel) (b : Vec)
    (x : Option Mat) (csc : List Nat × List Nat) (et : List Nat)
    (mnn : Option Nat) :
    (forward { m with bias := some b } k x csc et mnn).2
      = addBias (forward { m with bias := none } k x csc et mnn).2 b ∧
    (m.bias = none →
      (forward m k x csc et mnn).2
        = matMul
            (k (resolveFeatures m x) m.comp
              (get_typed_cugraph (resolveFeatures m x).length csc et
                m.num_relations mnn)
              m.root_weight (m.aggr == "mean"))
            (viewFlat m.weight m.out_channels)) := by
  constructor
  · rfl
  · intro h
    simp [forward, h]

/-- Witness for C5 at the biasless layer `mC1`. -/
theorem C5_bias_law_witness :
    (forward mC1 kFeat none cscC1 [0, 0, 0] none).2
      = matMul
          (kFeat (resolveFeatures mC1 none) mC1.comp
            (get_typed_cugraph (resolveFeatures mC1 none).length cscC1
              [0, 0, 0] mC1.num_relations none)
            mC1.root_weight (mC1.aggr == "mean"))
          (viewFlat mC1.weight mC1.out_channels) :=
  (C5_bias_law mC1 kFeat [] none cscC1 [0, 0, 0] none).2 rfl

/-- C6: with the optional dependency absent, the module import binds no
kernel (`try: import ... except ImportError: pass`) yet still succeeds,
construction succeeds for every valid configuration without consulting the
kernel, and the first forward call surfaces the unresolved-name error
untranslated; with the dependency present, forward runs the kernel. -/
theorem C6_missing_dependency (impl : Kernel) (I O R : Nat)
    (nb : Option Nat) (aggr : String) (rwt b : Bool)
    (g1 : Nat → Nat → Nat → ℤ) (g2 g3 : Nat → Nat → ℤ)
    (m : CuGraphRGCNConv) (x : Option Mat) (csc : List Nat × List Nat)
    (et : List Nat) (mnn : Option Nat) :
    importRGCNConvAgg false impl = none ∧
    (aggr ∈ ["sum", "add", "mean"] →
      (init I O R nb aggr rwt b g1 g2 g3).isOk = true) ∧
    forwardAvail m (importRGCNConvAgg false impl) x csc et mnn
      = .error nameErrorMsg ∧
    (∀ k, forwardAvail m (importRGCNConvAgg true k) x csc et mnn
      = .ok (forward m k x csc et mnn)) := by
  refine ⟨rfl, ?_, rfl, fun k => rfl⟩
  intro h
  simp [init, h, Except.isOk, Except.toBool]

/-- Witness for C6 at a concrete layer and a concrete construction. -/
theorem C6_missing_dependency_witness :
    forwardAvail mC1 (importRGCNConvAgg false kFeat) none cscC1 [0, 0, 0]
      none = .error nameErrorMsg ∧
    (init 2 1 1 none "sum" false false gZ3 gZ2 gZ2).isOk = true :=
  ⟨(C6_missing_dependency kFeat 2 1 1 none "sum" false false gZ3 gZ2 gZ2
      mC1 none cscC1 [0, 0, 0] none).2.2.1,
   (C6_missing_dependency kFeat 2 1 1 none "sum" false false gZ3 gZ2 gZ2
      mC1 none cscC1 [0, 0, 0] none).2.1 (by decide)⟩

/-- C7: `reset_parameters` Glorot-fills every slice of `weight` except the
final one when `root_weight` is on (every slice when off), fills the final
slice from an independent draw when `root_weight` is on, Glorot-fills
`comp` when present, and zero-fills `bias` when present; consequently,
immediately after construction the bias, if present, is exactly zero. -/
theorem C7_reset_parameters (m : CuGraphRGCNConv)
    (g1 : Nat → Nat → Nat → ℤ) (g2 g3 : Nat → Nat → ℤ) :
    (m.root_weight = true →
      (∀ i, i + 1 < m.weight.length →
        (m.reset_parameters g1 g2 g3).weight[i]?
          = (m.weight[i]?).map (glorotMat (g1 i))) ∧
      (m.weight.length ≠ 0 →
        (m.reset_parameters g1 g2 g3).weight[m.weight.length - 1]?
          = (m.weight[m.weight.length - 1]?).map (glorotMat g2))) ∧
    (m.root_weight = false →
      ∀ i, (m.reset_parameters g1 g2 g3).weight[i]?
        = (m.weight[i]?).map (glorotMat (g1 i))) ∧
    (m.reset_parameters g1 g2 g3).comp = glorotOpt g3 m.comp ∧
    (m.reset_parameters g1 g2 g3).bias = zerosOpt m.bias ∧
    (∀ I O R nb aggr rwt g1' g2' g3' m',
      init I O R nb aggr rwt true g1' g2' g3' = .ok m' →
      m'.bias = some (List.replicate O 0)) := by
  refine ⟨?_, ?_, reset_comp_eq m g1 g2 g3, reset_bias_eq m g1 g2 g3, ?_⟩
  · intro hr
    have hlenG : (glorotT3 g1 (m.weight.take (m.weight.length - 1))).length
        = m.weight.length - 1 := by
      simp only [glorotT3, List.length_mapIdx, List.length_take]
      omega
    constructor
    · intro i hi
      simp only [reset_parameters, hr, if_true]
      rw [List.take_left' hlenG, List.drop_left' hlenG,
        List.getElem?_append_left (by rw [hlenG]; omega)]
      simp only [glorotT3, List.getElem?_mapIdx, List.getElem?_take]
      rw [if_pos (by omega)]
    · intro hB
      simp only [reset_parameters, hr, if_true]
      rw [List.take_left' hlenG, List.drop_left' hlenG,
        List.getElem?_append_right hlenG.le, hlenG, Nat.sub_self,
        List.getElem?_map, List.getElem?_drop, Nat.add_zero]
  · intro hr i
    simp only [reset_parameters, hr, Bool.false_eq_true, if_false,
      List.take_length, List.drop_length, List.append_nil, glorotT3,
      List.getElem?_mapIdx]
  · intro I O R nb aggr rwt g1' g2' g3' m' h
    unfold init at h
    split at h
    · exact absurd h (by simp)
    · injection h with h
      subst h
      simp [reset_bias_eq, zerosOpt]

/-- A concrete layer with `root_weight = true` and two weight slices, for
the C7 witness. -/
def mC7 : CuGraphRGCNConv :=
  { in_channels := 1, out_channels := 1, num_relations := 1,
    num_bases := none, aggr := "sum", root_weight := true,
    weight := [[[2]], [[3]]], comp := none, bias := some [7] }

/-- A draw stream distinct from the zero streams, for the C7 witness. -/
def gOne : Nat → Nat → ℤ := fun _ _ => 1

/-- Witness for C7: the bulk slice comes from the bulk draw, the final
slice from the independent draw, and the constructed layer `mC3val` has an
exactly-zero bias. -/
theorem C7_reset_parameters_witness :
    (mC7.reset_parameters gZ3 gOne gZ2).weight[0]?
      = (mC7.weight[0]?).map (glorotMat (gZ3 0)) ∧
    (mC7.reset_parameters gZ3 gOne gZ2).weight[1]?
      = (mC7.weight[1]?).map (glorotMat gOne) ∧
    mC3val.bias = some (List.replicate 3 0) :=
  have h := C7_reset_parameters mC7 gZ3 gOne gZ2
  ⟨(h.1 rfl).1 0 (by decide),
   (h.1 rfl).2 (by decide),
   h.2.2.2.2 5 3 4 (some 2) "mean" true gZ3 gZ2 gZ2 mC3val rfl⟩

/-- C8: the forward call leaves every stored field of the layer unchanged,
and the output is a deterministic function of the inputs and the current
parameter and configuration values: two layers whose fields all agree
produce equal outputs on equal inputs (given the same kernel function). -/
theorem C8_frame_determinism (m m' : CuGraphRGCNConv) (k : Kernel)
    (x : Option Mat) (csc : List Nat × List Nat) (et : List Nat)
    (mnn : Option Nat) :
    (forward m k x csc et mnn).1 = m ∧
    (m.in_channels = m'.in_channels → m.out_channels = m'.out_channels →
      m.num_relations = m'.num_relations → m.num_bases = m'.num_bases →
      m.aggr = m'.aggr → m.root_weight = m'.root_weight →
      m.weight = m'.weight → m.comp = m'.comp → m.bias = m'.bias →
      (forward m k x csc et mnn).2 = (forward m' k x csc et mnn).2) := by
  refine ⟨rfl, ?_⟩
  intro h1 h2 h3 h4 h5 h6 h7 h8 h9
  have hmm : m = m' := by
    cases m
    cases m'
    simp_all
  rw [hmm]

/-- A second copy of `mC1`, field for field, for the C8 witness. -/
def mC1copy : CuGraphRGCNConv :=
  { in_channels := 2, out_channels := 1, num_relations := 1,
    num_bases := none, aggr := "sum", root_weight := false,
    weight := [[[1], [1]]], comp := none, bias := none }

/-- Witness for C8: state unchanged and equal outputs across two layers
with identical fields. -/
theorem C8_frame_determinism_witness :
    (forward mC1 kFeat none cscC1 [0, 0, 0] none).1 = mC1 ∧
    (forward mC1 kFeat none cscC1 [0, 0, 0] none).2
      = (forward mC1copy kFeat none cscC1 [0, 0, 0] none).2 :=
  ⟨(C8_frame_determinism mC1 mC1copy kFeat none cscC1 [0, 0, 0] none).1,
   (C8_frame_determinism mC1 mC1copy kFeat none cscC1 [0, 0, 0] none).2
     rfl rfl rfl rfl rfl rfl rfl rfl rfl⟩

/-- C9: `aggr` is only ever consulted through the test `aggr == "mean"`,
so construction with `"sum"` and construction with `"add"` (same remaining
arguments and draws) yield layers identical except for the stored `aggr`
string, and two layers differing only in `"sum"` versus `"add"` produce
equal forward outputs on every input. -/
theorem C9_sum_add_equivalence (I O R : Nat) (nb : Option Nat)
    (rwt b : Bool) (g1 : Nat → Nat → Nat → ℤ) (g2 g3 : Nat → Nat → ℤ)
    (m : CuGraphRGCNConv) (k : Kernel) (x : Option Mat)
    (csc : List Nat × List Nat) (et : List Nat) (mnn : Option Nat) :
    Except.map (fun mm => { mm with aggr := "add" })
        (init I O R nb "sum" rwt b g1 g2 g3)
      = init I O R nb "add" rwt b g1 g2 g3 ∧
    (forward { m with aggr := "sum" } k x csc et mnn).2
      = (forward { m with aggr := "add" } k x csc et mnn).2 := by
  exact ⟨rfl, rfl⟩

/-- C10: `reset_parameters` runs on every configuration, including those
with `comp` and/or `bias` absent: it invokes the Glorot and zero fills
through their None-tolerant wrappers, absent parameters remain absent, and
present parameters remain present. -/
theorem C10_reset_absent_noop (m : CuGraphRGCNConv)
    (g1 : Nat → Nat → Nat → ℤ) (g2 g3 : Nat → Nat → ℤ) :
    ((m.reset_parameters g1 g2 g3).comp = none ↔ m.comp = none) ∧
    ((m.reset_parameters g1 g2 g3).bias = none ↔ m.bias = none) ∧
    (m.reset_parameters g1 g2 g3).comp = glorotOpt g3 m.comp ∧
    (m.reset_parameters g1 g2 g3).bias = zerosOpt m.bias := by
  refine ⟨?_, ?_, reset_comp_eq m g1 g2 g3, reset_bias_eq m g1 g2 g3⟩
  · rw [reset_comp_eq]
    cases m.comp <;> simp [glorotOpt]
  · rw [reset_bias_eq]
    cases m.bias <;> simp [zerosOpt]

end RGCN
